/-
Verification of the Credibility & Conflict Resolution subsystem of the
Multi-Source Intelligence Summarizer.

Shallow embedding of:
  * src/conflict/strategies.py  (weighted_vote, majority_vote,
    highest_credibility_wins, conservative, STRATEGIES registry)
  * src/conflict/resolver.py    (_cluster_claims, resolve_conflicts)
  * src/agents/source_authority.py (_extract_domain, _tier1_lookup,
    get_source_authority; tier-2/3 network calls and the MongoDB cache are
    modelled as oracle functions `String → Option ℚ`)
  * the score-combination code of src/agents/news_agent.py,
    src/agents/blog_agent.py and src/agents/research_agent.py, and the
    recency sub-scores of the four agents.

Numbers that the Python code handles as floats are modelled as exact
rationals (ℚ); the recency sub-scores, which use `math.exp`, are modelled
over ℝ with `Real.exp`.  `round(x, 4)` is modelled as `round4` below.
Claim texts, document ids and URLs are Lean `String`s.
-/
import Mathlib

namespace MSIS

/-! ## Data model (src/db/models.py)

`CredibilityScore` keeps the two fields the verified components read and
write (`overall`, `breakdown`); `explanations` and `signals` are
human-readable metadata never consumed by any verified code path.
`Claim.id` (a random uuid, never compared) is omitted. -/

structure CredibilityScore where
  overall : ℚ
  breakdown : List (String × ℚ)
  deriving DecidableEq, Repr

structure Claim where
  text : String
  source_doc_id : String
  confidence : ℚ
  deriving DecidableEq, Repr

instance : Inhabited Claim := ⟨⟨"", "", 0⟩⟩

structure Conflict where
  claims : List Claim
  topic : String
  resolution : Option String
  status : String
  confidence : ℚ
  deriving DecidableEq, Repr

/-- `DocumentRecord` restricted to the fields read by `resolve_conflicts`:
`doc_id`, `doc_type`, `credibility_score`, `claims`. -/
structure DocumentRecord where
  doc_id : String
  doc_type : String
  credibility_score : Option CredibilityScore
  claims : List Claim
  deriving DecidableEq, Repr

/-! ## Strategies (src/conflict/strategies.py)

A credibility map is an association list from `doc_id` to the `overall`
score; strategies read nothing else from the stored `CredibilityScore`.
`credD m d c` is `credibility_map.get(c.source_doc_id, CredibilityScore(overall=d)).overall`. -/

def credD (m : List (String × ℚ)) (dflt : ℚ) (c : Claim) : ℚ :=
  (m.lookup c.source_doc_id).getD dflt

/-- First element of `c :: rest` attaining the maximal value of `f`.
This is both `max(claims, key=...)` (Python `max` returns the first
maximum) and `sorted(..., reverse=True)[0]` under Python's stable sort. -/
def firstMaxBy (f : Claim → ℚ) (c : Claim) (rest : List Claim) : Claim :=
  rest.foldl (fun b x => if f b < f x then x else b) c

/-- Maximum of `f` over `c :: rest` (Python `max(scores)`). -/
def foldMax (f : Claim → ℚ) (c : Claim) (rest : List Claim) : ℚ :=
  rest.foldl (fun a x => max a (f x)) (f c)

/-- Minimum of `f` over `c :: rest` (Python `min(scores)`). -/
def foldMin (f : Claim → ℚ) (c : Claim) (rest : List Claim) : ℚ :=
  rest.foldl (fun a x => min a (f x)) (f c)

/-- `weighted_vote` (strategies.py lines 6-38), default threshold 0.15.
Missing sources default to credibility 0.5 (line 18).  The conflict is
built with `resolution = best text` and `confidence = best credibility`;
if the spread is below the threshold only `status` and `resolution` are
overwritten, `confidence` keeps the best credibility. -/
def weighted_vote (m : List (String × ℚ)) (claims : List Claim) : Conflict :=
  match claims with
  | [] => ⟨[], "", none, "unresolved", 0⟩
  | c :: rest =>
    if foldMax (credD m (1/2)) c rest - foldMin (credD m (1/2)) c rest < 0.15 then
      ⟨c :: rest, "", none, "unresolved", credD m (1/2) (firstMaxBy (credD m (1/2)) c rest)⟩
    else
      ⟨c :: rest, "", some (firstMaxBy (credD m (1/2)) c rest).text, "resolved",
        credD m (1/2) (firstMaxBy (credD m (1/2)) c rest)⟩

/-- The high-trust test of `majority_vote` (strategies.py line 50):
missing sources default to credibility 0 here. -/
def isHighTrust (m : List (String × ℚ)) (c : Claim) : Bool :=
  decide ((0.75 : ℚ) ≤ credD m 0 c)

/-- `majority_vote` (strategies.py lines 41-60). -/
def majority_vote (m : List (String × ℚ)) (claims : List Claim) : Conflict :=
  match claims.filter (isHighTrust m) with
  | w :: _ :: _ => ⟨claims, "", some w.text, "resolved", 0.85⟩
  | _ => weighted_vote m claims

/-- `highest_credibility_wins` (strategies.py lines 63-77).  The winner is
selected with default credibility 0 (line 70) but its reported confidence
is looked up with default 0.5 (line 76). -/
def highest_credibility_wins (m : List (String × ℚ)) (claims : List Claim) : Conflict :=
  match claims with
  | [] => ⟨[], "", none, "unresolved", 0⟩
  | c :: rest =>
    ⟨c :: rest, "", some (firstMaxBy (credD m 0) c rest).text, "resolved",
      credD m (1/2) (firstMaxBy (credD m 0) c rest)⟩

/-- `conservative` (strategies.py lines 80-91). -/
def conservative (_m : List (String × ℚ)) (claims : List Claim) : Conflict :=
  ⟨claims, "", none, "unresolved", 0⟩

abbrev StrategyFn := List (String × ℚ) → List Claim → Conflict

/-- `STRATEGIES` (strategies.py lines 94-99), in dict insertion order. -/
def STRATEGIES : List (String × StrategyFn) :=
  [("weighted_vote", weighted_vote),
   ("majority_vote", majority_vote),
   ("highest_credibility_wins", highest_credibility_wins),
   ("conservative", conservative)]

/-- `DEFAULT_STRATEGY_BY_TYPE` (strategies.py lines 101-107). -/
def DEFAULT_STRATEGY_BY_TYPE : List (String × String) :=
  [("research_paper", "weighted_vote"),
   ("news_article", "majority_vote"),
   ("blog_post", "weighted_vote"),
   ("legal_document", "highest_credibility_wins"),
   ("unknown", "conservative")]

/-! ## Claim clustering (src/conflict/resolver.py lines 25-49)

The sentence-transformer embedding and the cosine similarity of two claim
texts are external collaborators (spec section 6); they enter the model as
a single black-box function `sim : String → String → ℚ` giving the cosine
similarity of the embeddings of two claim texts.  `_cluster_claims`
iterates claims in input order; each not-yet-assigned claim seeds a new
cluster and absorbs every later not-yet-assigned claim whose similarity
with the seed is `≥ threshold`.  Since absorbed claims are exactly the
later unassigned ones similar to the seed, one outer-loop step is a
filter of the remaining list. -/

def clusterClaims (sim : String → String → ℚ) (t : ℚ) (cs : List Claim) :
    List (List Claim) :=
  match cs with
  | [] => []
  | c :: rest =>
    (c :: rest.filter (fun d => decide (t ≤ sim c.text d.text)))
      :: clusterClaims sim t (rest.filter (fun d => !(decide (t ≤ sim c.text d.text))))
termination_by cs.length
decreasing_by
  simp only [List.length_cons]
  exact Nat.lt_succ_of_le (List.length_filter_le _ _)

/-! ## resolve_conflicts (src/conflict/resolver.py lines 52-115) -/

/-- `doc.credibility_score or CredibilityScore(overall=0.5)` (line 65). -/
def overallOfDoc (d : DocumentRecord) : ℚ :=
  match d.credibility_score with
  | some s => s.overall
  | none => 1/2

/-- Credibility map (lines 64-67).  A Python dict comprehension keeps the
last entry for a duplicated key while association-list lookup keeps the
first, hence the `reverse`. -/
def credMapOf (docs : List DocumentRecord) : List (String × ℚ) :=
  (docs.map (fun d => (d.doc_id, overallOfDoc d))).reverse

/-- Number of documents of a given type (lines 70-72). -/
def countType (docs : List DocumentRecord) (t : String) : ℕ :=
  (docs.filter (fun d => d.doc_type = t)).length

/-- Document types in first-occurrence order (dict insertion order of
`type_counts`). -/
def typesInOrder (docs : List DocumentRecord) : List String :=
  docs.foldl (fun acc d => if d.doc_type ∈ acc then acc else acc ++ [d.doc_type]) []

/-- `max(type_counts, key=type_counts.get)` with `"unknown"` for an empty
input (line 73); Python `max` returns the first key attaining the maximum
in dict iteration order. -/
def dominantType (docs : List DocumentRecord) : String :=
  match typesInOrder docs with
  | [] => "unknown"
  | t :: ts => ts.foldl (fun b x => if countType docs b < countType docs x then x else b) t

/-- Strategy name selection (line 75).  Python's
`strategy_override or DEFAULT_STRATEGY_BY_TYPE.get(...)` treats the empty
string as falsy, so an empty override also selects the per-type default. -/
def strategyNameOf (docs : List DocumentRecord) (override : Option String) : String :=
  match override with
  | some s => if s = "" then (DEFAULT_STRATEGY_BY_TYPE.lookup (dominantType docs)).getD "weighted_vote" else s
  | none => (DEFAULT_STRATEGY_BY_TYPE.lookup (dominantType docs)).getD "weighted_vote"

/-- Unresolved fall-back representative (line 112): the first
max-credibility member, looked up with default overall 0, flagged with
confidence 0.4 (line 113). -/
def bestFallback (m : List (String × ℚ)) (c : Claim) (rest : List Claim) : Claim :=
  let best := firstMaxBy (credD m 0) c rest
  ⟨best.text, best.source_doc_id, 0.4⟩

/-- Per-cluster step (lines 89-113): singleton clusters and single-source
clusters pass through their first member without a conflict; multi-source
clusters invoke the strategy, overwrite `topic` with the first claim's
text truncated to 80 characters plus an ellipsis, and append either the
resolution (when resolved with a truthy resolution text) or the flagged
best-credibility member.  The `[]` case is unreachable: clusters are
nonempty by construction. -/
def processCluster (fn : StrategyFn) (m : List (String × ℚ)) (cl : List Claim) :
    List Claim × Option Conflict :=
  match cl with
  | [] => ([], none)
  | [c] => ([c], none)
  | c :: d :: rest =>
    if ((c :: d :: rest).map (fun x => x.source_doc_id)).dedup.length = 1 then
      ([c], none)
    else
      let conflict0 := fn m (c :: d :: rest)
      let conflict := { conflict0 with topic := c.text.take 80 ++ "…" }
      match conflict.resolution with
      | some r =>
        if conflict.status = "resolved" ∧ r ≠ "" then
          ([⟨r, c.source_doc_id, conflict.confidence⟩], some conflict)
        else
          ([bestFallback m c (d :: rest)], some conflict)
      | none => ([bestFallback m c (d :: rest)], some conflict)

/-- Accumulation step of the per-cluster loop (lines 89-113): resolved
claims and conflicts are appended in cluster order. -/
def accumulate (fn : StrategyFn) (m : List (String × ℚ))
    (acc : List Claim × List Conflict) (cl : List Claim) : List Claim × List Conflict :=
  (acc.1 ++ (processCluster fn m cl).1, acc.2 ++ (processCluster fn m cl).2.toList)

/-- Body of `resolve_conflicts` after strategy selection. -/
def resolveCore (sim : String → String → ℚ) (docs : List DocumentRecord)
    (fn : StrategyFn) : List Claim × List Conflict :=
  if (docs.flatMap (fun d => d.claims)).isEmpty then ([], [])
  else
    (clusterClaims sim (0.82 : ℚ) (docs.flatMap (fun d => d.claims))).foldl
      (accumulate fn (credMapOf docs)) ([], [])

/-- `resolve_conflicts(docs, strategy_override)` (lines 52-115).  An
unrecognized strategy name falls back to `weighted_vote` (line 76). -/
def resolve_conflicts (sim : String → String → ℚ) (docs : List DocumentRecord)
    (override : Option String) : List Claim × List Conflict :=
  resolveCore sim docs ((STRATEGIES.lookup (strategyNameOf docs override)).getD weighted_vote)

/-! ## Source authority (src/agents/source_authority.py)

Strings are processed as character lists.  `containsChars pat l` is the
Python substring test `pat in l`; `anyTailP p l` is `re.search` for the
anchored-at-one-position predicate `p`: it holds when `p` matches at some
position of `l`. -/

def containsChars (pat : List Char) (l : List Char) : Bool :=
  pat.isPrefixOf l ||
    match l with
    | [] => false
    | _ :: rest => containsChars pat rest

/-- Python `sub in s` on strings. -/
def containsStr (s sub : String) : Bool :=
  containsChars sub.toList s.toList

def anyTailP (p : List Char → Bool) (l : List Char) : Bool :=
  p l ||
    match l with
    | [] => false
    | _ :: rest => anyTailP p rest

/-- Regex `\.gov(\/|$|\.)` at one position. -/
def patGov (t : List Char) : Bool :=
  (".gov/".toList).isPrefixOf t || (".gov.".toList).isPrefixOf t || t == ".gov".toList

/-- Regex `\.int(\/|$|\.)` at one position. -/
def patInt (t : List Char) : Bool :=
  (".int/".toList).isPrefixOf t || (".int.".toList).isPrefixOf t || t == ".int".toList

/-- Regex `\.edu(\/|$|\.)` at one position. -/
def patEdu (t : List Char) : Bool :=
  (".edu/".toList).isPrefixOf t || (".edu.".toList).isPrefixOf t || t == ".edu".toList

def isLowerAZ (c : Char) : Bool := 'a' ≤ c && c ≤ 'z'

/-- Regex `\.gov\.[a-z]{2}(\/|$)` at one position. -/
def patGovCc (t : List Char) : Bool :=
  match t with
  | '.' :: 'g' :: 'o' :: 'v' :: '.' :: a :: b :: rest =>
    isLowerAZ a && isLowerAZ b && (rest.isEmpty || rest.head? == some '/')
  | _ => false

/-- Regex `\.edu\.[a-z]{2}(\/|$)` at one position. -/
def patEduCc (t : List Char) : Bool :=
  match t with
  | '.' :: 'e' :: 'd' :: 'u' :: '.' :: a :: b :: rest =>
    isLowerAZ a && isLowerAZ b && (rest.isEmpty || rest.head? == some '/')
  | _ => false

/-- Regex `\.ac\.[a-z]{2}(\/|$)` at one position. -/
def patAcCc (t : List Char) : Bool :=
  match t with
  | '.' :: 'a' :: 'c' :: '.' :: a :: b :: rest =>
    isLowerAZ a && isLowerAZ b && (rest.isEmpty || rest.head? == some '/')
  | _ => false

/-- Regex `\.un\.org` at one position (no anchor). -/
def patUnOrg (t : List Char) : Bool :=
  (".un.org".toList).isPrefixOf t

/-- `_TLD_PATTERNS` (source_authority.py lines 68-76), checked in order,
first match wins (lines 89-91). -/
def tldLookup (u : String) : Option ℚ :=
  let l := u.toList
  if anyTailP patGov l then some 0.93
  else if anyTailP patGovCc l then some 0.92
  else if anyTailP patInt l then some 0.94
  else if anyTailP patUnOrg l then some 0.97
  else if anyTailP patEdu l then some 0.88
  else if anyTailP patEduCc l then some 0.87
  else if anyTailP patAcCc l then some 0.87
  else none

/-- `_BIAS_CORRECTIONS` (source_authority.py lines 26-35).  The optional
static JSON file `src/data/news_trust_db.json` is not present in the
source tree, so `_load_static_db` takes its `else` branch and the static
DB is exactly these corrections, in dict insertion order. -/
def biasCorrections : List (String × ℚ) :=
  [("rt.com", 0.20), ("sputniknews.com", 0.18), ("globalresearch.ca", 0.15),
   ("zerohedge.com", 0.28), ("dailywire.com", 0.45), ("thedailybeast.com", 0.58),
   ("huffpost.com", 0.65), ("buzzfeednews.com", 0.68)]

/-- `_tier1_lookup` (source_authority.py lines 81-92): first the static DB
by substring containment against the raw URL, then the TLD patterns. -/
def tier1Lookup (db : List (String × ℚ)) (url : String) : Option ℚ :=
  match db.find? (fun e => containsStr url e.1) with
  | some e => some e.2
  | none => tldLookup url

/-! `_extract_domain` (source_authority.py lines 52-63).  `urlparse` is
modelled for absolute URLs of the form `scheme://host/path...`: the
netloc is the text between the first `://` and the next `/`, `?` or `#`
(empty when the URL has no `//`). -/

def afterSchemeSep (cs : List Char) : Option (List Char) :=
  match cs with
  | [] => none
  | ':' :: '/' :: '/' :: rest => some rest
  | _ :: rest => afterSchemeSep rest

def netlocOf (url : String) : List Char :=
  match afterSchemeSep url.toList with
  | some rest => rest.takeWhile (fun c => c ≠ '/' && c ≠ '?' && c ≠ '#')
  | none => []

/-- Join dot-separated labels back into a string. -/
def joinDots (parts : List (List Char)) : String :=
  match parts with
  | [] => ""
  | [p] => String.mk p
  | p :: rest => String.mk p ++ "." ++ joinDots rest

def compoundSuffixes : List (List Char) :=
  ["gov".toList, "ac".toList, "co".toList, "edu".toList, "org".toList, "net".toList]

/-- Shared tail of `_extract_domain`: split the (already stripped) host on
dots, keep the last two labels, or the last three when the second-to-last
label is in the compound-suffix set; return the host itself when it has a
single label. -/
def registrableOfHost (host : List Char) : String :=
  let parts := host.splitOn '.'
  match parts.reverse with
  | a :: b :: c :: _ =>
    if b ∈ compoundSuffixes then joinDots [c, b, a] else joinDots [b, a]
  | [a, b] => joinDots [b, a]
  | _ => String.mk host

/-- `_extract_domain` as implemented: `netloc.lower().lstrip("www.")`.
Python `str.lstrip("www.")` removes the longest leading run of characters
drawn from the set `{'w', '.'}`, not the literal prefix `"www."`. -/
def extract_domain (url : String) : String :=
  let host := (netlocOf url).map Char.toLower
  registrableOfHost (host.dropWhile (fun c => c = 'w' || c = '.'))

/-- Modelled from the spec: the registrable-domain computation as the spec
words it (section 4.1 step 3 — "strip `www.`"): remove one literal
leading `"www."` prefix from the host, then apply the same label logic.
Kept separate from `extract_domain` to compare the two behaviours. -/
def extractDomainSpec (url : String) : String :=
  let host := (netlocOf url).map Char.toLower
  registrableOfHost (if ("www.".toList).isPrefixOf host then host.drop 4 else host)

/-- `get_source_authority` (source_authority.py lines 213-247), with the
MongoDB cache read and the tier-2 (OpenPageRank) and tier-3 (LLM) lookups
as oracle functions from the registrable domain: `none` models any
failure/miss (timeout, bad status, missing or out-of-range payload) and
`some q` a successful score.  Cache writes have no effect on the returned
value and are omitted. -/
def getSourceAuthority (db : List (String × ℚ))
    (cache tier2 tier3 : String → Option ℚ) (url : Option String) : ℚ :=
  match url with
  | none => 1/2
  | some u =>
    match tier1Lookup db u with
    | some s => s
    | none =>
      let domain := extract_domain u
      match cache domain with
      | some s => s
      | none =>
        match tier2 domain with
        | some s => s
        | none =>
          match tier3 domain with
          | some s => s
          | none => 0.45

/-! ## Credibility scorers

`round4` is Python's `round(x, 4)` over exact rationals.  (Python uses
round-half-to-even on binary floats; Mathlib's `round` is
round-half-up — all concrete values used below are away from ties, where
the two coincide.) -/

def round4 (x : ℚ) : ℚ := (round (x * 10000) : ℤ) / 10000

/-- News sub-score `_byline_score` (news_agent.py lines 90-95), as a
function of whether the byline regex matched. -/
def bylineScore (hasByline : Bool) : ℚ := if hasByline then 0.9 else 0.3

/-- News sub-score `_citation_score_news` (news_agent.py lines 98-105), as
a function of the two regex match counts. -/
def citationScoreNews (quoted named : ℕ) : ℚ :=
  max (min ((quoted : ℚ) * 0.1 + (named : ℚ) * 0.08) 1) 0.2

/-- Blog sub-score `_references_score` (blog_agent.py lines 49-52), as a
function of the URL-regex match count. -/
def referencesScore (links : ℕ) : ℚ :=
  if links = 0 then 0.2 else min ((links : ℚ) * 0.08) 1

/-- Blog domain DB (blog_agent.py lines 31-35; the optional JSON file
`src/data/domain_authority_db.json` is not present in the source tree, so
the hardcoded fallback dict is the DB). -/
def blogDomainDb : List (String × ℚ) :=
  [("medium.com", 0.72), ("substack.com", 0.65), ("wordpress.com", 0.55),
   ("towardsdatascience.com", 0.82), ("hackernoon.com", 0.75),
   ("techcrunch.com", 0.88), ("wired.com", 0.87), ("ycombinator.com", 0.90)]

/-- Blog sub-score `_domain_score` (blog_agent.py lines 39-46). -/
def domainScoreBlog (db : List (String × ℚ)) (url : Option String) : ℚ :=
  match url with
  | none => 0.4
  | some u =>
    match db.find? (fun e => containsStr u e.1) with
    | some e => e.2
    | none => 0.45

/-- Score combination of `NewsAgent.score_credibility` (news_agent.py
lines 126-148), as a function of the five computed sub-scores
(`source_trust` from `get_source_authority`, `recency`, `citation`,
`corroboration` read straight from metadata with default 0.5, `byline`).
`overall` is the weighted sum of the *unrounded* sub-scores, rounded to 4
places; `breakdown` stores each sub-score rounded to 4 places. -/
def newsScoreCredibility (st rec cit cor byl : ℚ) : CredibilityScore :=
  { overall := round4 (0.40 * st + 0.20 * rec + 0.15 * cit + 0.15 * cor + 0.10 * byl)
  , breakdown :=
      [("source_trust", round4 st), ("recency", round4 rec),
       ("primary_citations", round4 cit), ("corroboration", round4 cor),
       ("byline", round4 byl)] }

/-- Score combination of `BlogAgent.score_credibility` (blog_agent.py
lines 98-140), as a function of the four computed sub-scores.  `author`
is whatever float the LLM returned (`_author_credentials_score` does
`float(data.get("score", 0.5))` with no clamping, lines 88-92). -/
def blogScoreCredibility (dom author ref rec : ℚ) : CredibilityScore :=
  { overall := round4 (0.30 * dom + 0.25 * author + 0.25 * ref + 0.20 * rec)
  , breakdown :=
      [("domain_authority", round4 dom), ("author_credentials", round4 author),
       ("external_references", round4 ref), ("recency", round4 rec)] }

/-- Score combination of `ResearchAgent.score_credibility` in academic
mode (research_agent.py lines 124-140), as a function of the five
computed sub-scores. -/
def researchScoreAcademic (auth venue cite rec hind : ℚ) : CredibilityScore :=
  { overall := round4 (0.30 * auth + 0.25 * venue + 0.20 * cite + 0.15 * rec + 0.10 * hind)
  , breakdown :=
      [("source_authority", round4 auth), ("venue_tier", round4 venue),
       ("citation_count", round4 cite), ("recency", round4 rec),
       ("author_hindex", round4 hind)] }

/-! ## Recency sub-scores (the known-date/known-year branches)

news_agent.py lines 79-87, blog_agent.py lines 55-63, legal_agent.py
lines 58-71, research_agent.py lines 66-70.  `age` is the computed
document age (in days for news/blog, in years for legal/research),
already truncated the way each agent computes it. -/

noncomputable def newsRecencyScore (ageDays : ℤ) : ℝ :=
  max 0.1 (Real.exp (-(ageDays : ℝ) / 365))

noncomputable def blogRecencyScore (ageDays : ℤ) : ℝ :=
  max 0.1 (Real.exp (-(ageDays : ℝ) / 730))

/-- Legal recency, year-regex branch: `age = max(now.year - year, 0)`,
then `max(0.2, exp(-age / 15))`. -/
noncomputable def legalRecencyScore (ageYears : ℕ) : ℝ :=
  max 0.2 (Real.exp (-(ageYears : ℝ) / 15))

/-- Research recency: `exp(-log(2) * age / 5)` — the only agent whose
decay carries the `ln 2` factor. -/
noncomputable def researchRecencyScore (ageYears : ℕ) : ℝ :=
  Real.exp (-Real.log 2 * (ageYears : ℝ) / 5)

/-- The half-life decay formula of the spec (section 4.2):
`max(floor, e^(-ln2 * age/halflife))`. -/
noncomputable def halfLifeDecay (fl halflife age : ℝ) : ℝ :=
  max fl (Real.exp (-Real.log 2 * age / halflife))

/-- The invariant of spec section 8: `overall` and every `breakdown`
entry lie in `[0, 1]`. -/
abbrev InUnitInterval (s : CredibilityScore) : Prop :=
  (0 ≤ s.overall ∧ s.overall ≤ 1) ∧ ∀ p ∈ s.breakdown, 0 ≤ p.2 ∧ p.2 ≤ 1

/-! ## Concrete test fixtures -/

/-- Similarity oracle that declares every pair of texts equivalent. -/
def simOne : String → String → ℚ := fun _ _ => 1

/-- Similarity oracle: only the texts "x" and "y" (in that order) are
similar. -/
def simXY : String → String → ℚ :=
  fun a b => if a = "x" ∧ b = "y" then 0.9 else 0.1

/-- A single document with two claims that cluster together. -/
def docTwoClaims : DocumentRecord :=
  ⟨"d1", "news_article", none, [⟨"alpha", "d1", 1⟩, ⟨"beta", "d1", 1⟩]⟩

/-- Two documents of unknown type with spread credibilities 0.9/0.4 and
one claim each. -/
def docsUnknown : List DocumentRecord :=
  [⟨"dA", "unknown", some ⟨0.9, []⟩, [⟨"ca", "dA", 1⟩]⟩,
   ⟨"dB", "unknown", some ⟨0.4, []⟩, [⟨"cb", "dB", 1⟩]⟩]

/-- The credibility map of the spec's three-document example
(0.90 / 0.40 / 0.55). -/
def mClear : List (String × ℚ) := [("A", 0.9), ("B", 0.4), ("C", 0.55)]

def claimA : Claim := ⟨"ta", "A", 1⟩

def claimB : Claim := ⟨"tb", "B", 1⟩

def claimC : Claim := ⟨"tc", "C", 1⟩

/-- A map that knows only source "db"; used against a claim whose source
is absent. -/
def mOnlyDb : List (String × ℚ) := [("db", 0.4)]

def claimMissing : Claim := ⟨"tc", "missing", 1⟩

def claimPresent : Claim := ⟨"td", "db", 1⟩

def claimsXYZ : List Claim := [⟨"x", "d1", 1⟩, ⟨"z", "d2", 1⟩, ⟨"y", "d3", 1⟩]

/-! # Theorems -/

/-! ## Rounding lemmas for `round4` -/

theorem abs_round4_sub_self (x : ℚ) : |round4 x - x| ≤ 1 / 20000 := by
  unfold round4
  have h := abs_sub_round (x * 10000)
  rw [abs_sub_comm] at h
  have e : ((round (x * 10000) : ℤ) : ℚ) / 10000 - x
      = (((round (x * 10000) : ℤ) : ℚ) - x * 10000) / 10000 := by ring
  rw [e, abs_div, abs_of_pos (by norm_num : (0:ℚ) < 10000),
    div_le_iff₀ (by norm_num : (0:ℚ) < 10000)]
  calc |((round (x * 10000) : ℤ) : ℚ) - x * 10000| ≤ 1 / 2 := h
    _ = 1 / 20000 * 10000 := by norm_num

theorem round_sub_round_le_one (u v : ℚ) (h : |u - v| ≤ 1 / 2) :
    |round u - round v| ≤ (1 : ℤ) := by
  rw [abs_le] at h ⊢
  rw [round_eq, round_eq]
  constructor
  · have hb : v + 1 / 2 ≤ (u + 1 / 2) + 1 := by linarith
    have hf := Int.floor_le_floor hb
    rw [Int.floor_add_one] at hf
    omega
  · have hb : u + 1 / 2 ≤ (v + 1 / 2) + 1 := by linarith
    have hf := Int.floor_le_floor hb
    rw [Int.floor_add_one] at hf
    omega

theorem round4_close (x y : ℚ) (h : |x - y| ≤ 1 / 20000) :
    |round4 x - round4 y| ≤ 1 / 10000 := by
  have h1 : |x * 10000 - y * 10000| ≤ 1 / 2 := by
    have e : x * 10000 - y * 10000 = (x - y) * 10000 := by ring
    rw [e, abs_mul, abs_of_pos (by norm_num : (0:ℚ) < 10000)]
    calc |x - y| * 10000 ≤ 1 / 20000 * 10000 :=
          mul_le_mul_of_nonneg_right h (by norm_num)
      _ = 1 / 2 := by norm_num
  have h2 := round_sub_round_le_one _ _ h1
  unfold round4
  have e : ((round (x * 10000) : ℤ) : ℚ) / 10000 - ((round (y * 10000) : ℤ) : ℚ) / 10000
      = (((round (x * 10000) - round (y * 10000) : ℤ)) : ℚ) / 10000 := by
    push_cast
    ring
  rw [e, abs_div, abs_of_pos (by norm_num : (0:ℚ) < 10000),
    div_le_iff₀ (by norm_num : (0:ℚ) < 10000)]
  have h3 : |((round (x * 10000) - round (y * 10000) : ℤ) : ℚ)| ≤ 1 := by
    exact_mod_cast h2
  linarith

theorem round4_unit {x : ℚ} (h0 : 0 ≤ x) (h1 : x ≤ 1) :
    0 ≤ round4 x ∧ round4 x ≤ 1 := by
  unfold round4
  constructor
  · apply div_nonneg _ (by norm_num)
    have hz : (0 : ℤ) ≤ round (x * 10000) := by
      rw [round_eq]
      apply Int.floor_nonneg.mpr
      linarith
    exact_mod_cast hz
  · rw [div_le_one (by norm_num : (0:ℚ) < 10000)]
    have hr : round (x * 10000) ≤ round ((10000 : ℚ)) := by
      rw [round_eq, round_eq]
      exact Int.floor_le_floor (by linarith)
    have r1 : round ((10000 : ℚ)) = 10000 := by
      rw [show ((10000 : ℚ)) = ((10000 : ℤ) : ℚ) by norm_num, round_intCast]
    rw [r1] at hr
    exact_mod_cast hr

theorem round4_deviation (z : ℚ) :
    -(1 / 20000) ≤ z - round4 z ∧ z - round4 z ≤ 1 / 20000 := by
  have h := abs_round4_sub_self z
  rw [abs_sub_comm, abs_le] at h
  exact h

/-- C7 (code_bug evidence): `_extract_domain` treats `"www."` as a set of
characters to `lstrip`, not as a literal prefix.  On the claimed positive
examples the code agrees with the claim (`sub.example.com → example.com`,
`news.example.co.uk → example.co.uk`), but for the host `web.ai` the code
strips the leading `w` and yields `eb.ai`, while prefix-stripping (the
claim's and the spec's wording, `extractDomainSpec`) yields `web.ai`. -/
theorem extract_domain_lstrip_divergence :
    extract_domain "https://sub.example.com/x" = "example.com"
    ∧ extract_domain "https://news.example.co.uk/x" = "example.co.uk"
    ∧ extract_domain "https://www.bbc.com/news" = "bbc.com"
    ∧ extract_domain "https://web.ai/x" = "eb.ai"
    ∧ extractDomainSpec "https://web.ai/x" = "web.ai"
    ∧ extract_domain "https://web.ai/x" ≠ extractDomainSpec "https://web.ai/x" := by
  refine ⟨?_, ?_, ?_, ?_, ?_, ?_⟩ <;> with_unfolding_all decide

/-- C8: for `https://example.gov/page` the `.gov` TLD pattern of tier 1
fires with score 0.93, and the result of `get_source_authority` does not
depend on the cache, OpenPageRank or LLM oracles — whatever value (or
failure) each of them would return. -/
theorem gov_url_tier1_independent (cache tier2 tier3 : String → Option ℚ) :
    getSourceAuthority biasCorrections cache tier2 tier3 (some "https://example.gov/page")
      = 0.93 := by
  have h : tier1Lookup biasCorrections "https://example.gov/page" = some 0.93 := by
    with_unfolding_all decide
  simp only [getSourceAuthority, h]

/-- Witness for C8 at concrete oracle functions. -/
theorem gov_url_tier1_independent_witness :
    getSourceAuthority biasCorrections (fun _ => some 0.11) (fun _ => none)
      (fun _ => some 0.33) (some "https://example.gov/page") = 0.93 :=
  gov_url_tier1_independent (fun _ => some 0.11) (fun _ => none) (fun _ => some 0.33)

/-- C1 counterexample: a single document whose two claims land in one
cluster does *not* come back with its claim list unchanged —
`resolve_conflicts` collapses the same-source cluster to its first
member, so the second claim is dropped (the conflicts list is empty, as
the claim says). -/
theorem single_doc_claims_not_preserved :
    resolve_conflicts simOne [docTwoClaims] none ≠ (docTwoClaims.claims, []) := by
  with_unfolding_all decide

/-- C3 counterexample: with sub-scores source_trust 0.5 (no URL), recency
0.5 (no date), citations 0.2 (no matches), byline 0.3 (no byline) and
metadata corroboration 0.00034, the news scorer's `overall` (0.3601,
rounded from the *unrounded* weighted sum 0.360051) differs from the
weighted sum of the rounded `breakdown` entries (0.360045, which rounds
to 0.3600). -/
theorem news_overall_not_combo_of_breakdown :
    (newsScoreCredibility 0.5 0.5 (citationScoreNews 0 0) 0.00034 (bylineScore false)).overall
      ≠ round4 (0.40 * round4 0.5 + 0.20 * round4 0.5 + 0.15 * round4 (citationScoreNews 0 0)
          + 0.15 * round4 0.00034 + 0.10 * round4 (bylineScore false)) := by
  with_unfolding_all decide

/-- C4 counterexample: when the author-credentials LLM returns 2.0 the
blog scorer stores 2.0 in `breakdown` (no clamping), violating the
[0,1] invariant, while `overall` (= 0.75) still passes the model's own
range validation, so this out-of-range score is really returned. -/
theorem blog_breakdown_exceeds_unit :
    ¬ InUnitInterval (blogScoreCredibility (domainScoreBlog blogDomainDb none) 2
        (referencesScore 0) 0.4)
    ∧ 0 ≤ (blogScoreCredibility (domainScoreBlog blogDomainDb none) 2
        (referencesScore 0) 0.4).overall
    ∧ (blogScoreCredibility (domainScoreBlog blogDomainDb none) 2
        (referencesScore 0) 0.4).overall ≤ 1 := by
  refine ⟨?_, ?_, ?_⟩ <;> with_unfolding_all decide

/-- C9 counterexample: the empty string is not a registered strategy
name, yet `strategy_override or ...` treats it as *no* override (Python
falsiness), so with dominant type "unknown" it selects `conservative`,
not `weighted_vote`, and the results differ. -/
theorem empty_override_not_weighted_vote :
    STRATEGIES.lookup "" = none
    ∧ resolve_conflicts simOne docsUnknown (some "")
        ≠ resolve_conflicts simOne docsUnknown (some "weighted_vote") := by
  exact ⟨rfl, by with_unfolding_all decide⟩

/-- C2 (code_bug evidence): the news, blog and legal agents compute
`exp(-age/halflife)` *without* the `ln 2` factor, so at an age of exactly
one claimed half-life they return `e⁻¹ ≈ 0.368` instead of `0.5` — each
value is strictly below what the half-life decay formula of the spec
gives (with the type-specific half-life: 365 days news, 730 days blog,
15 years legal).  Only the research agent's recency equals the formula
(its floor being 0). -/
theorem recency_lacks_ln2_factor :
    newsRecencyScore 365 < halfLifeDecay 0.1 365 365
    ∧ blogRecencyScore 730 < halfLifeDecay 0.1 730 730
    ∧ legalRecencyScore 15 < halfLifeDecay 0.2 15 15
    ∧ ∀ a : ℕ, researchRecencyScore a = halfLifeDecay 0 5 a := by
  have hlog1 : Real.log 2 < 1 := by
    have h9 := Real.log_two_lt_d9
    linarith
  have hhalf : Real.exp (-Real.log 2) = 1 / 2 := by
    rw [Real.exp_neg, Real.exp_log (by norm_num : (0:ℝ) < 2)]
    norm_num
  have hexp1 : Real.exp (-1) < 1 / 2 := by
    calc Real.exp (-1) < Real.exp (-Real.log 2) := Real.exp_lt_exp.mpr (by linarith)
      _ = 1 / 2 := hhalf
  refine ⟨?_, ?_, ?_, ?_⟩
  · unfold newsRecencyScore halfLifeDecay
    have e1 : -((365:ℤ) : ℝ) / 365 = -1 := by norm_num
    have e2 : -Real.log 2 * 365 / 365 = -Real.log 2 := by ring
    rw [e1, e2, hhalf, max_eq_right (by norm_num : (0.1:ℝ) ≤ 1 / 2)]
    exact max_lt (by norm_num) hexp1
  · unfold blogRecencyScore halfLifeDecay
    have e1 : -((730:ℤ) : ℝ) / 730 = -1 := by norm_num
    have e2 : -Real.log 2 * 730 / 730 = -Real.log 2 := by ring
    rw [e1, e2, hhalf, max_eq_right (by norm_num : (0.1:ℝ) ≤ 1 / 2)]
    exact max_lt (by norm_num) hexp1
  · unfold legalRecencyScore halfLifeDecay
    have e1 : -((15:ℕ) : ℝ) / 15 = -1 := by norm_num
    have e2 : -Real.log 2 * 15 / 15 = -Real.log 2 := by ring
    rw [e1, e2, hhalf, max_eq_right (by norm_num : (0.2:ℝ) ≤ 1 / 2)]
    exact max_lt (by norm_num) hexp1
  · intro a
    unfold researchRecencyScore halfLifeDecay
    exact (max_eq_right (Real.exp_pos _).le).symm

/-- Witness instantiating the research-agent conjunct of
`recency_lacks_ln2_factor` at a concrete age. -/
theorem recency_lacks_ln2_factor_witness :
    researchRecencyScore 5 = halfLifeDecay 0 5 5 :=
  recency_lacks_ln2_factor.2.2.2 5

/-- C3 (amended): `overall` is the 4-place rounding of the fixed convex
combination of the *unrounded* sub-scores (weights summing to 1), while
`breakdown` stores the individually rounded sub-scores; the combination
of the rounded `breakdown` entries agrees with `overall` only up to one
unit in the fourth decimal place (shown for the news scorer and the
research scorer's academic mode). -/
theorem overall_is_rounded_weighted_sum (st rec cit cor byl auth ven cnt rcy hix : ℚ) :
    (newsScoreCredibility st rec cit cor byl).overall
        = round4 (0.40 * st + 0.20 * rec + 0.15 * cit + 0.15 * cor + 0.10 * byl)
    ∧ (newsScoreCredibility st rec cit cor byl).breakdown
        = [("source_trust", round4 st), ("recency", round4 rec),
           ("primary_citations", round4 cit), ("corroboration", round4 cor),
           ("byline", round4 byl)]
    ∧ |(newsScoreCredibility st rec cit cor byl).overall
        - round4 (0.40 * round4 st + 0.20 * round4 rec + 0.15 * round4 cit
            + 0.15 * round4 cor + 0.10 * round4 byl)| ≤ 1 / 10000
    ∧ (researchScoreAcademic auth ven cnt rcy hix).overall
        = round4 (0.30 * auth + 0.25 * ven + 0.20 * cnt + 0.15 * rcy + 0.10 * hix)
    ∧ |(researchScoreAcademic auth ven cnt rcy hix).overall
        - round4 (0.30 * round4 auth + 0.25 * round4 ven + 0.20 * round4 cnt
            + 0.15 * round4 rcy + 0.10 * round4 hix)| ≤ 1 / 10000
    ∧ (0.40 + 0.20 + 0.15 + 0.15 + 0.10 : ℚ) = 1
    ∧ (0.30 + 0.25 + 0.20 + 0.15 + 0.10 : ℚ) = 1 := by
  have d1 := round4_deviation st
  have d2 := round4_deviation rec
  have d3 := round4_deviation cit
  have d4 := round4_deviation cor
  have d5 := round4_deviation byl
  have e1 := round4_deviation auth
  have e2 := round4_deviation ven
  have e3 := round4_deviation cnt
  have e4 := round4_deviation rcy
  have e5 := round4_deviation hix
  refine ⟨rfl, rfl, ?_, rfl, ?_, by norm_num, by norm_num⟩
  · show |round4 (0.40 * st + 0.20 * rec + 0.15 * cit + 0.15 * cor + 0.10 * byl)
        - round4 (0.40 * round4 st + 0.20 * round4 rec + 0.15 * round4 cit
            + 0.15 * round4 cor + 0.10 * round4 byl)| ≤ 1 / 10000
    apply round4_close
    have e : (0.40 * st + 0.20 * rec + 0.15 * cit + 0.15 * cor + 0.10 * byl)
        - (0.40 * round4 st + 0.20 * round4 rec + 0.15 * round4 cit
            + 0.15 * round4 cor + 0.10 * round4 byl)
        = 0.40 * (st - round4 st) + 0.20 * (rec - round4 rec) + 0.15 * (cit - round4 cit)
            + 0.15 * (cor - round4 cor) + 0.10 * (byl - round4 byl) := by ring
    rw [abs_le, e]
    constructor <;> linarith [d1.1, d1.2, d2.1, d2.2, d3.1, d3.2, d4.1, d4.2, d5.1, d5.2]
  · show |round4 (0.30 * auth + 0.25 * ven + 0.20 * cnt + 0.15 * rcy + 0.10 * hix)
        - round4 (0.30 * round4 auth + 0.25 * round4 ven + 0.20 * round4 cnt
            + 0.15 * round4 rcy + 0.10 * round4 hix)| ≤ 1 / 10000
    apply round4_close
    have e : (0.30 * auth + 0.25 * ven + 0.20 * cnt + 0.15 * rcy + 0.10 * hix)
        - (0.30 * round4 auth + 0.25 * round4 ven + 0.20 * round4 cnt
            + 0.15 * round4 rcy + 0.10 * round4 hix)
        = 0.30 * (auth - round4 auth) + 0.25 * (ven - round4 ven) + 0.20 * (cnt - round4 cnt)
            + 0.15 * (rcy - round4 rcy) + 0.10 * (hix - round4 hix) := by ring
    rw [abs_le, e]
    constructor <;> linarith [e1.1, e1.2, e2.1, e2.2, e3.1, e3.2, e4.1, e4.2, e5.1, e5.2]

/-- Witness instantiating `overall_is_rounded_weighted_sum` at concrete
sub-scores. -/
theorem overall_is_rounded_weighted_sum_witness :
    (newsScoreCredibility 0.5 0.5 0.2 0.5 0.3).overall
      = round4 (0.40 * 0.5 + 0.20 * 0.5 + 0.15 * 0.2 + 0.15 * 0.5 + 0.10 * 0.3) :=
  (overall_is_rounded_weighted_sum 0.5 0.5 0.2 0.5 0.3 0 0 0 0 0).1

/-! ## Range lemmas for the C4 invariant -/

theorem bylineScore_range (b : Bool) : 0 ≤ bylineScore b ∧ bylineScore b ≤ 1 := by
  cases b <;> constructor <;> norm_num [bylineScore]

theorem citationScoreNews_range (q n : ℕ) :
    0 ≤ citationScoreNews q n ∧ citationScoreNews q n ≤ 1 := by
  unfold citationScoreNews
  constructor
  · exact le_trans (by norm_num) (le_max_right _ _)
  · exact max_le (min_le_right _ _) (by norm_num)

/-- C4 (amended): provided every externally supplied value lies in
`[0,1]` (the source-authority score, the recency value, the metadata
`corroboration_score`, the blog domain score, the LLM author-credentials
score, the references score), the news and blog scorers return a
`CredibilityScore` whose `overall` and whose `breakdown` entries all lie
in `[0,1]`.  (Without the hypothesis on the LLM author score this fails,
as the C4 counterexample above shows.) -/
theorem scores_within_unit_interval (st rec cor dom author ref brec : ℚ)
    (hst : 0 ≤ st ∧ st ≤ 1) (hrec : 0 ≤ rec ∧ rec ≤ 1) (hcor : 0 ≤ cor ∧ cor ≤ 1)
    (hdom : 0 ≤ dom ∧ dom ≤ 1) (hauthor : 0 ≤ author ∧ author ≤ 1)
    (href : 0 ≤ ref ∧ ref ≤ 1) (hbrec : 0 ≤ brec ∧ brec ≤ 1)
    (b : Bool) (q n : ℕ) :
    InUnitInterval (newsScoreCredibility st rec (citationScoreNews q n) cor (bylineScore b))
    ∧ InUnitInterval (blogScoreCredibility dom author ref brec) := by
  have hby := bylineScore_range b
  have hcit := citationScoreNews_range q n
  constructor
  · constructor
    · exact round4_unit (by linarith [hby.1, hcit.1]) (by linarith [hby.2, hcit.2])
    · intro p hp
      simp only [newsScoreCredibility, List.mem_cons, List.not_mem_nil, or_false] at hp
      rcases hp with rfl | rfl | rfl | rfl | rfl
      · exact round4_unit hst.1 hst.2
      · exact round4_unit hrec.1 hrec.2
      · exact round4_unit hcit.1 hcit.2
      · exact round4_unit hcor.1 hcor.2
      · exact round4_unit hby.1 hby.2
  · constructor
    · exact round4_unit (by linarith) (by linarith)
    · intro p hp
      simp only [blogScoreCredibility, List.mem_cons, List.not_mem_nil, or_false] at hp
      rcases hp with rfl | rfl | rfl | rfl
      · exact round4_unit hdom.1 hdom.2
      · exact round4_unit hauthor.1 hauthor.2
      · exact round4_unit href.1 href.2
      · exact round4_unit hbrec.1 hbrec.2

/-- Witness for `scores_within_unit_interval` at concrete in-range
values. -/
theorem scores_within_unit_interval_witness :
    InUnitInterval (newsScoreCredibility 0.5 0.5 (citationScoreNews 0 0) 0.5 (bylineScore false))
    ∧ InUnitInterval (blogScoreCredibility 0.45 0.5 0.2 0.4) :=
  scores_within_unit_interval 0.5 0.5 0.5 0.45 0.5 0.2 0.4
    (by norm_num) (by norm_num) (by norm_num) (by norm_num) (by norm_num)
    (by norm_num) (by norm_num) false 0 0

/-! ## The first maximum -/

/-- `firstMaxBy` attains the maximum and is a member of the list. -/
theorem firstMaxBy_eq_foldMax (f : Claim → ℚ) (c : Claim) (rest : List Claim) :
    f (firstMaxBy f c rest) = foldMax f c rest ∧ firstMaxBy f c rest ∈ c :: rest := by
  induction rest generalizing c with
  | nil => exact ⟨rfl, List.mem_cons_self c []⟩
  | cons x xs ih =>
    have hfold : firstMaxBy f c (x :: xs) = firstMaxBy f (if f c < f x then x else c) xs := rfl
    have hmax : foldMax f c (x :: xs) = foldMax f (if f c < f x then x else c) xs := by
      unfold foldMax
      simp only [List.foldl_cons]
      congr 1
      by_cases h : f c < f x
      · rw [if_pos h, max_eq_right h.le]
      · rw [if_neg h, max_eq_left (not_lt.mp h)]
    constructor
    · rw [hfold, hmax]
      exact (ih _).1
    · rw [hfold]
      rcases List.mem_cons.mp (ih (if f c < f x then x else c)).2 with h1 | h2
      · rw [h1]
        by_cases h : f c < f x
        · rw [if_pos h]
          exact List.mem_cons_of_mem _ (List.mem_cons_self _ _)
        · rw [if_neg h]
          exact List.mem_cons_self _ _
      · exact List.mem_cons_of_mem _ (List.mem_cons_of_mem _ h2)

/-- C5: on a nonempty claim list with full credibility coverage,
`weighted_vote` (threshold 0.15) keeps the input claims; if the
max-to-min credibility spread is below 0.15 the conflict is unresolved
with no resolution; otherwise it is resolved with the text of the first
claim attaining the maximal source credibility — "the claim from the
highest-credibility source" — and that credibility as confidence. -/
theorem weighted_vote_spec (m : List (String × ℚ)) (c : Claim) (rest : List Claim)
    (_hcov : ∀ x ∈ c :: rest, (m.lookup x.source_doc_id).isSome) :
    (weighted_vote m (c :: rest)).claims = c :: rest
    ∧ credD m (1/2) (firstMaxBy (credD m (1/2)) c rest) = foldMax (credD m (1/2)) c rest
    ∧ firstMaxBy (credD m (1/2)) c rest ∈ c :: rest
    ∧ (foldMax (credD m (1/2)) c rest - foldMin (credD m (1/2)) c rest < 0.15 →
        (weighted_vote m (c :: rest)).status = "unresolved"
          ∧ (weighted_vote m (c :: rest)).resolution = none)
    ∧ ((0.15 : ℚ) ≤ foldMax (credD m (1/2)) c rest - foldMin (credD m (1/2)) c rest →
        (weighted_vote m (c :: rest)).status = "resolved"
          ∧ (weighted_vote m (c :: rest)).resolution
              = some (firstMaxBy (credD m (1/2)) c rest).text
          ∧ (weighted_vote m (c :: rest)).confidence
              = credD m (1/2) (firstMaxBy (credD m (1/2)) c rest)) := by
  have hfm := firstMaxBy_eq_foldMax (credD m (1/2)) c rest
  by_cases h : foldMax (credD m (1/2)) c rest - foldMin (credD m (1/2)) c rest < 0.15
  · have hw : weighted_vote m (c :: rest)
        = ⟨c :: rest, "", none, "unresolved",
            credD m (1/2) (firstMaxBy (credD m (1/2)) c rest)⟩ := by
      simp only [weighted_vote]
      rw [if_pos h]
    refine ⟨?_, hfm.1, hfm.2, fun _ => ⟨?_, ?_⟩, fun hge => absurd h (not_lt.mpr hge)⟩ <;>
      rw [hw]
  · have hw : weighted_vote m (c :: rest)
        = ⟨c :: rest, "", some (firstMaxBy (credD m (1/2)) c rest).text, "resolved",
            credD m (1/2) (firstMaxBy (credD m (1/2)) c rest)⟩ := by
      simp only [weighted_vote]
      rw [if_neg h]
    refine ⟨?_, hfm.1, hfm.2, fun hlt => absurd hlt h, fun _ => ⟨?_, ?_, ?_⟩⟩ <;>
      rw [hw]

/-- Witness for C5 at the spec's 0.90/0.40/0.55 example: the conflict is
resolved to the 0.90 document's claim text with confidence 0.90. -/
theorem weighted_vote_spec_witness :
    (weighted_vote mClear [claimA, claimB, claimC]).status = "resolved"
    ∧ (weighted_vote mClear [claimA, claimB, claimC]).resolution = some "ta"
    ∧ (weighted_vote mClear [claimA, claimB, claimC]).confidence = 0.9 := by
  have h := weighted_vote_spec mClear claimA [claimB, claimC] (by with_unfolding_all decide)
  have hge : (0.15 : ℚ) ≤ foldMax (credD mClear (1/2)) claimA [claimB, claimC]
      - foldMin (credD mClear (1/2)) claimA [claimB, claimC] := by
    with_unfolding_all decide
  have h5 := h.2.2.2.2 hge
  refine ⟨h5.1, ?_, ?_⟩
  · rw [h5.2.1]
    with_unfolding_all decide
  · rw [h5.2.2]
    with_unfolding_all decide

/-! ## Clustering lemmas -/

/-- The concatenation of the clusters is a permutation of the input (so
every claim lands in exactly one cluster, multiplicities included);
induction on a length bound. -/
theorem cluster_join_perm_aux (sim : String → String → ℚ) (t : ℚ) :
    ∀ (n : ℕ) (cs : List Claim), cs.length ≤ n →
      ((clusterClaims sim t cs).flatten).Perm cs := by
  intro n
  induction n with
  | zero =>
    intro cs hcs
    rw [List.eq_nil_of_length_eq_zero (Nat.le_zero.mp hcs)]
    simp [clusterClaims]
  | succ n ih =>
    intro cs hcs
    match cs with
    | [] => simp [clusterClaims]
    | c :: rest =>
      have hlen : (rest.filter (fun d => !(decide (t ≤ sim c.text d.text)))).length ≤ n := by
        have hf := List.length_filter_le (fun d => !(decide (t ≤ sim c.text d.text))) rest
        simp only [List.length_cons] at hcs
        omega
      have ihr := ih _ hlen
      simp only [clusterClaims, List.flatten_cons, List.cons_append]
      refine List.Perm.cons c ?_
      have hfp := List.filter_append_perm (fun d => decide (t ≤ sim c.text d.text)) rest
      exact (List.Perm.append_left _ ihr).trans hfp

theorem cluster_join_perm (sim : String → String → ℚ) (t : ℚ) (cs : List Claim) :
    ((clusterClaims sim t cs).flatten).Perm cs :=
  cluster_join_perm_aux sim t cs.length cs le_rfl

/-- Every produced cluster is nonempty, and every non-seed member has
similarity at least `t` with the cluster's seed. -/
theorem cluster_shape_aux (sim : String → String → ℚ) (t : ℚ) :
    ∀ (n : ℕ) (cs : List Claim), cs.length ≤ n →
      ∀ cl ∈ clusterClaims sim t cs,
        ∃ s tl, cl = s :: tl ∧ ∀ d ∈ tl, t ≤ sim s.text d.text := by
  intro n
  induction n with
  | zero =>
    intro cs hcs
    rw [List.eq_nil_of_length_eq_zero (Nat.le_zero.mp hcs)]
    simp [clusterClaims]
  | succ n ih =>
    intro cs hcs
    match cs with
    | [] => simp [clusterClaims]
    | c :: rest =>
      have hlen : (rest.filter (fun d => !(decide (t ≤ sim c.text d.text)))).length ≤ n := by
        have hf := List.length_filter_le (fun d => !(decide (t ≤ sim c.text d.text))) rest
        simp only [List.length_cons] at hcs
        omega
      intro cl hcl
      simp only [clusterClaims, List.mem_cons] at hcl
      rcases hcl with rfl | h
      · refine ⟨c, _, rfl, ?_⟩
        intro d hd
        exact of_decide_eq_true (List.mem_filter.mp hd).2
      · exact ih _ hlen cl h

theorem cluster_shape (sim : String → String → ℚ) (t : ℚ) (cs : List Claim) :
    ∀ cl ∈ clusterClaims sim t cs,
      ∃ s tl, cl = s :: tl ∧ ∀ d ∈ tl, t ≤ sim s.text d.text :=
  cluster_shape_aux sim t cs.length cs le_rfl

/-- C6: at the resolver's threshold 0.82, `_cluster_claims` returns a
partition of its input — the clusters' concatenation is a permutation of
the claims list — and each cluster consists of a seed followed by the
later claims whose similarity with that seed is at least 0.82. -/
theorem cluster_claims_partition (sim : String → String → ℚ) (cs : List Claim) :
    ((clusterClaims sim (0.82 : ℚ) cs).flatten).Perm cs
    ∧ ∀ cl ∈ clusterClaims sim (0.82 : ℚ) cs,
        ∃ s tl, cl = s :: tl ∧ ∀ d ∈ tl, (0.82 : ℚ) ≤ sim s.text d.text :=
  ⟨cluster_join_perm sim _ cs, cluster_shape sim _ cs⟩

/-- Witness for C6 on a concrete claim list where the first and third
claims cluster (non-contiguously) and the second is a singleton. -/
theorem cluster_claims_partition_witness :
    ((clusterClaims simXY (0.82 : ℚ) claimsXYZ).flatten).Perm claimsXYZ
    ∧ clusterClaims simXY (0.82 : ℚ) claimsXYZ
        = [[⟨"x", "d1", 1⟩, ⟨"y", "d3", 1⟩], [⟨"z", "d2", 1⟩]] :=
  ⟨(cluster_claims_partition simXY claimsXYZ).1, by with_unfolding_all decide⟩

/-! ## Single-document behaviour of resolve_conflicts -/

theorem dedup_singleton_of_all_eq (s : String) (l : List String)
    (h : ∀ x ∈ l, x = s) : (s :: l).dedup = [s] := by
  induction l with
  | nil => simp
  | cons a tl ih =>
    have ha : a = s := h a (List.mem_cons_self a tl)
    subst ha
    rw [List.dedup_cons_of_mem (List.mem_cons_self a tl)]
    exact ih fun x hx => h x (List.mem_cons_of_mem a hx)

/-- A nonempty cluster all of whose members share one source document
collapses to its first member without recording a conflict. -/
theorem processCluster_same_source (fn : StrategyFn) (m : List (String × ℚ))
    (cl : List Claim) (s : String) (hne : cl ≠ [])
    (hall : ∀ x ∈ cl, x.source_doc_id = s) :
    processCluster fn m cl = ([cl.headI], none) := by
  match cl with
  | [] => exact absurd rfl hne
  | [c] => rfl
  | c :: d :: rest =>
    have hded : ((c :: d :: rest).map (fun x => x.source_doc_id)).dedup.length = 1 := by
      have hmap : ((c :: d :: rest).map (fun x => x.source_doc_id))
          = s :: ((d :: rest).map (fun x => x.source_doc_id)) := by
        simp only [List.map_cons]
        rw [hall c (List.mem_cons_self _ _)]
      rw [hmap, dedup_singleton_of_all_eq s _ ?_]
      · rfl
      · intro x hx
        rcases List.mem_map.mp hx with ⟨y, hy, rfl⟩
        exact hall y (List.mem_cons_of_mem _ hy)
    simp only [processCluster]
    rw [if_pos hded]
    rfl

theorem foldl_accumulate_same_source (fn : StrategyFn) (m : List (String × ℚ))
    (s : String) (clusters : List (List Claim)) :
    ∀ acc : List Claim × List Conflict,
      (∀ cl ∈ clusters, cl ≠ [] ∧ ∀ x ∈ cl, x.source_doc_id = s) →
      clusters.foldl (accumulate fn m) acc = (acc.1 ++ clusters.map List.headI, acc.2) := by
  induction clusters with
  | nil =>
    intro acc _
    simp
  | cons cl cls ih =>
    intro acc h
    have hcl := h cl (List.mem_cons_self _ _)
    have hstep : accumulate fn m acc cl = (acc.1 ++ [cl.headI], acc.2) := by
      unfold accumulate
      rw [processCluster_same_source fn m cl s hcl.1 hcl.2]
      simp
    rw [List.foldl_cons, hstep, ih _ fun c hc => h c (List.mem_cons_of_mem _ hc)]
    simp

/-- C1 (amended): on a single document whose claims all carry its
`doc_id`, `resolve_conflicts` returns no conflicts, and its resolved
claims are the first member of each similarity cluster of the document's
claims, in cluster order — which is the claim list unchanged exactly
when no two claims cluster together. -/
theorem resolve_conflicts_single_doc (sim : String → String → ℚ)
    (doc : DocumentRecord) (override : Option String)
    (h : ∀ c ∈ doc.claims, c.source_doc_id = doc.doc_id) :
    resolve_conflicts sim [doc] override
      = ((clusterClaims sim (0.82 : ℚ) doc.claims).map List.headI, []) := by
  unfold resolve_conflicts resolveCore
  have hflat : ([doc].flatMap fun d => d.claims) = doc.claims := by simp
  rw [hflat]
  by_cases hemp : doc.claims.isEmpty
  · rw [if_pos hemp]
    rw [List.isEmpty_iff.mp hemp]
    simp [clusterClaims]
  · rw [if_neg hemp]
    have hmem : ∀ cl ∈ clusterClaims sim (0.82 : ℚ) doc.claims,
        cl ≠ [] ∧ ∀ x ∈ cl, x.source_doc_id = doc.doc_id := by
      intro cl hcl
      obtain ⟨se, tl, rfl, _⟩ := cluster_shape sim _ doc.claims cl hcl
      refine ⟨List.cons_ne_nil _ _, ?_⟩
      intro x hx
      have hjoin : x ∈ (clusterClaims sim (0.82 : ℚ) doc.claims).flatten :=
        List.mem_flatten.mpr ⟨_, hcl, hx⟩
      exact h x ((cluster_join_perm sim _ doc.claims).mem_iff.mp hjoin)
    rw [foldl_accumulate_same_source _ _ doc.doc_id _ ([], []) hmem]
    simp

/-- Witness for the amended C1 on a concrete single-document input. -/
theorem resolve_conflicts_single_doc_witness :
    resolve_conflicts simOne [docTwoClaims] none = ([⟨"alpha", "d1", 1⟩], []) := by
  rw [resolve_conflicts_single_doc simOne docTwoClaims none (by with_unfolding_all decide)]
  with_unfolding_all decide

/-! ## Strategy-name fallback -/

/-- C9 (amended): any *nonempty* override string absent from the
`STRATEGIES` registry makes `resolve_conflicts` behave exactly as with
the `weighted_vote` strategy (the empty string instead re-selects the
per-type default, as the C9 counterexample above shows). -/
theorem unknown_override_falls_back (sim : String → String → ℚ)
    (docs : List DocumentRecord) (s : String)
    (h1 : STRATEGIES.lookup s = none) (h2 : s ≠ "") :
    resolve_conflicts sim docs (some s)
      = resolve_conflicts sim docs (some "weighted_vote") := by
  unfold resolve_conflicts
  have hn : strategyNameOf docs (some s) = s := by
    simp only [strategyNameOf]
    rw [if_neg h2]
  have hw : strategyNameOf docs (some "weighted_vote") = "weighted_vote" := by
    simp only [strategyNameOf]
    rw [if_neg (by with_unfolding_all decide : ¬("weighted_vote" = ""))]
  have hlw : STRATEGIES.lookup "weighted_vote" = some weighted_vote := by
    with_unfolding_all rfl
  rw [hn, hw, h1, hlw]
  rfl

/-- Witness for the amended C9 with the unregistered name "bogus". -/
theorem unknown_override_falls_back_witness :
    resolve_conflicts simOne docsUnknown (some "bogus")
      = resolve_conflicts simOne docsUnknown (some "weighted_vote") :=
  unknown_override_falls_back simOne docsUnknown "bogus"
    (by with_unfolding_all rfl) (by with_unfolding_all decide)

/-! ## Per-strategy defaults for missing sources -/

/-- C10: a claim whose `source_doc_id` is absent from the credibility
map is scored 0.5 by `weighted_vote` (visible in the reported
confidence), 0 by `majority_vote`'s high-trust test, and 0 by
`highest_credibility_wins`' winner selection (a present 0.4 source beats
it) while that strategy *reports* a missing winner's confidence as
0.5. -/
theorem strategy_missing_source_defaults (m : List (String × ℚ)) (c d : Claim)
    (hc : m.lookup c.source_doc_id = none)
    (hd : m.lookup d.source_doc_id = some 0.4) :
    credD m (1/2) c = 1/2
    ∧ credD m 0 c = 0
    ∧ (weighted_vote m [c]).status = "unresolved"
    ∧ (weighted_vote m [c]).confidence = 1/2
    ∧ isHighTrust m c = false
    ∧ (highest_credibility_wins m [c, d]).resolution = some d.text
    ∧ (highest_credibility_wins m [c]).confidence = 1/2 := by
  have hcd : credD m (1/2) c = 1/2 := by
    unfold credD
    rw [hc]
    rfl
  have hc0 : credD m 0 c = 0 := by
    unfold credD
    rw [hc]
    rfl
  have hd4 : credD m 0 d = 0.4 := by
    unfold credD
    rw [hd]
    rfl
  have hspread : foldMax (credD m (1/2)) c [] - foldMin (credD m (1/2)) c [] < 0.15 := by
    unfold foldMax foldMin
    simp only [List.foldl_nil]
    norm_num
  have hwv : weighted_vote m [c]
      = ⟨[c], "", none, "unresolved", credD m (1/2) (firstMaxBy (credD m (1/2)) c [])⟩ := by
    simp only [weighted_vote]
    rw [if_pos hspread]
  have hfirst : firstMaxBy (credD m (1/2)) c [] = c := rfl
  have hbest : firstMaxBy (credD m 0) c [d] = d := by
    unfold firstMaxBy
    simp only [List.foldl_cons, List.foldl_nil]
    rw [hc0, hd4, if_pos (by norm_num)]
  refine ⟨hcd, hc0, ?_, ?_, ?_, ?_, ?_⟩
  · rw [hwv]
  · rw [hwv]
    show credD m (1/2) (firstMaxBy (credD m (1/2)) c []) = 1/2
    rw [hfirst, hcd]
  · unfold isHighTrust
    rw [hc0]
    with_unfolding_all decide
  · simp only [highest_credibility_wins]
    rw [hbest]
  · simp only [highest_credibility_wins]
    show credD m (1/2) (firstMaxBy (credD m 0) c []) = 1/2
    rw [show firstMaxBy (credD m 0) c [] = c from rfl, hcd]

/-- Witness for C10 at a concrete map and claims. -/
theorem strategy_missing_source_defaults_witness :
    credD mOnlyDb (1/2) claimMissing = 1/2
    ∧ credD mOnlyDb 0 claimMissing = 0
    ∧ (weighted_vote mOnlyDb [claimMissing]).status = "unresolved"
    ∧ (weighted_vote mOnlyDb [claimMissing]).confidence = 1/2
    ∧ isHighTrust mOnlyDb claimMissing = false
    ∧ (highest_credibility_wins mOnlyDb [claimMissing, claimPresent]).resolution = some "td"
    ∧ (highest_credibility_wins mOnlyDb [claimMissing]).confidence = 1/2 := by
  have h := strategy_missing_source_defaults mOnlyDb claimMissing claimPresent
    (by with_unfolding_all rfl) (by with_unfolding_all rfl)
  exact ⟨h.1, h.2.1, h.2.2.1, h.2.2.2.1, h.2.2.2.2.1, h.2.2.2.2.2.1, h.2.2.2.2.2.2⟩

end MSIS
